import Mathlib

/-!
A shallow embedding of the NBT.js codec (`src/nbt.ts`, namespace `nbt`):
the growable `Writer`, the cursor-based `Reader`, the custom UTF-8 text
codec, and the top-level root-codec functions `writeUncompressed`,
`parseUncompressed` and `parse`.

Modelling conventions:
- A JavaScript byte buffer (`ArrayBuffer` / `Uint8Array`) is a `List Nat`
  whose elements are bytes `< 256`.
- A JavaScript string is its sequence of UTF-16 code units (`List Nat`,
  each `< 0x10000`), which is exactly what `charCodeAt` iterates over.
- A JavaScript number is an IEEE-754 binary64 value; where a number is used
  as a float we carry its 64-bit pattern (`Nat < 2^64`) and model
  `DataView.setFloat32` via an explicit binary64 → binary32
  round-to-nearest-even conversion on bit patterns, and `getFloat32` via
  the exact binary32 → binary64 widening.  Integer-valued uses
  (byte/short/int) carry `Int` and model the ECMAScript `ToInt8/16/32`
  truncations by explicit `% 2^w` arithmetic.
- Fallible reads (`DataView.getX` past the end raises `RangeError`) return
  `Option`; thrown errors at the API level are `Except` / explicit outcome
  constructors.
-/

namespace NbtJs

/-! ### JavaScript integer conversions

`DataView.setInt8/setInt16/setInt32` store the low 8/16/32 bits of the
(integer) value, big-endian; `getInt8/getInt16/getInt32` read them back as
signed two's-complement values. -/

/-- The byte stored by `setInt8`/`setUint8` for an integer value: its low 8 bits. -/
def jsToUint8 (v : Int) : Nat := (v % 256).toNat

/-- The two big-endian bytes stored by `setInt16` for an integer value. -/
def int16BytesBE (v : Int) : List Nat :=
  let m := (v % 65536).toNat
  [m / 256, m % 256]

/-- The four big-endian bytes stored by `setInt32` for an integer value. -/
def int32BytesBE (v : Int) : List Nat :=
  let m := (v % 4294967296).toNat
  [m / 16777216 % 256, m / 65536 % 256, m / 256 % 256, m % 256]

/-- Models `getInt8`: a raw byte read back as a signed 8-bit value. -/
def jsInt8OfByte (b : Nat) : Int :=
  if b < 128 then (b : Int) else (b : Int) - 256

/-- Models `getInt16`: two big-endian raw bytes read back as a signed 16-bit value. -/
def jsInt16OfBytes (b0 b1 : Nat) : Int :=
  let m := b0 * 256 + b1
  if m < 32768 then (m : Int) else (m : Int) - 65536

/-- Models `getInt32`: four big-endian raw bytes read back as a signed 32-bit value. -/
def jsInt32OfBytes (b0 b1 b2 b3 : Nat) : Int :=
  let m := b0 * 16777216 + b1 * 65536 + b2 * 256 + b3
  if m < 2147483648 then (m : Int) else (m : Int) - 4294967296

/-- Big-endian bytes (width `n`) of a natural number. -/
def natToBytesBE (n v : Nat) : List Nat :=
  (List.range n).map fun i => v / 256 ^ (n - 1 - i) % 256

/-! ### IEEE-754 bit-pattern conversions

`DataView.setFloat32` converts the binary64 argument to binary32 by
round-to-nearest (ties to even); `getFloat32` widens the stored binary32
exactly back to binary64.  Both are modelled on bit patterns. -/

/-- Round `m / 2^sh` to the nearest integer, ties to even. -/
def roundDiv2Pow (m sh : Nat) : Nat :=
  if sh = 0 then m
  else
    let q := m >>> sh
    let r := m - (q <<< sh)
    let half := 1 <<< (sh - 1)
    if r > half ∨ (r = half ∧ q % 2 = 1) then q + 1 else q

/-- Scale an integer significand by `2^sh` for `sh : Int`: a left shift when
`sh ≥ 0`, otherwise round-to-nearest-even division by `2^(-sh)`. -/
def scaleRound (m : Nat) (sh : Int) : Nat :=
  if 0 ≤ sh then m <<< sh.toNat else roundDiv2Pow m (-sh).toNat

/-- binary64 bit pattern → binary32 bit pattern, round-to-nearest-even:
the conversion performed by `DataView.setFloat32` (a.k.a. `Math.fround`)
on a double value. -/
def f32BitsOfF64Bits (x : Nat) : Nat :=
  let n := x % 2 ^ 64
  let s := n >>> 63
  let e := (n >>> 52) % 2048
  let m := n % 2 ^ 52
  if e = 2047 then
    -- infinities and NaNs
    if m = 0 then s <<< 31 ||| (255 <<< 23)
    else s <<< 31 ||| (255 <<< 23) ||| (1 <<< 22) ||| (m >>> 29)
  else
    -- finite: value = (-1)^s * M * 2^k
    let M := if e = 0 then m else m + 2 ^ 52
    let k : Int := if e = 0 then -1074 else (e : Int) - 1075
    if M = 0 then s <<< 31
    else
      let exp2 : Int := (Nat.log2 M : Int) + k
      if exp2 < -126 then
        -- binary32 subnormal range (or underflow to zero)
        let r := scaleRound M (k + 149)
        if 2 ^ 23 ≤ r then s <<< 31 ||| (1 <<< 23) ||| (r - 2 ^ 23)
        else s <<< 31 ||| r
      else
        -- normal candidate: 24-bit significand
        let r := scaleRound M (23 - (Nat.log2 M : Int))
        let r2 := if r = 2 ^ 24 then 2 ^ 23 else r
        let exp3 := if r = 2 ^ 24 then exp2 + 1 else exp2
        let eField : Int := exp3 + 127
        if 255 ≤ eField then s <<< 31 ||| (255 <<< 23)
        else s <<< 31 ||| (eField.toNat <<< 23) ||| (r2 - 2 ^ 23)

/-- binary32 bit pattern → binary64 bit pattern (exact widening): the
conversion performed by `DataView.getFloat32` when the read float becomes
a JavaScript number. -/
def f64BitsOfF32Bits (x : Nat) : Nat :=
  let b := x % 2 ^ 32
  let s := b >>> 31
  let e := (b >>> 23) % 256
  let m := b % 2 ^ 23
  if e = 255 then
    if m = 0 then s <<< 63 ||| (2047 <<< 52)
    else s <<< 63 ||| (2047 <<< 52) ||| (1 <<< 51) ||| (m <<< 29)
  else if e = 0 then
    if m = 0 then s <<< 63
    else
      let l := Nat.log2 m
      s <<< 63 ||| ((l + 874) <<< 52) ||| ((m - (1 <<< l)) <<< (52 - l))
  else
    s <<< 63 ||| ((e + 896) <<< 52) ||| (m <<< 29)

/-! ### Text codec (`encodeUTF8` / `decodeUTF8`)

`encodeUTF8` iterates `str.charCodeAt(i)` over `0 ≤ i < str.length`, i.e.
over UTF-16 code units, pushing 1–4 bytes per unit according to the
branch thresholds in the source.  (A code unit is always `< 0x10000`, so
the fourth branch is kept for faithfulness but is unreachable on real
strings.) -/

/-- Models `encodeUTF8` from `src/nbt.ts`: input is the string's UTF-16 code units. -/
def encodeUTF8 : List Nat → List Nat
  | [] => []
  | c :: rest =>
    (if c < 0x80 then [c]
     else if c < 0x800 then
       [0xC0 ||| (c >>> 6), 0x80 ||| (c &&& 0x3F)]
     else if c < 0x10000 then
       [0xE0 ||| (c >>> 12), 0x80 ||| ((c >>> 6) &&& 0x3F), 0x80 ||| (c &&& 0x3F)]
     else
       [0xF0 ||| ((c >>> 18) &&& 0x07), 0x80 ||| ((c >>> 12) &&& 0x3F),
        0x80 ||| ((c >>> 6) &&& 0x3F), 0x80 ||| (c &&& 0x3F)])
    ++ encodeUTF8 rest

/-- The code-point scan of `decodeUTF8` from `src/nbt.ts`.  The source's
loop advances `i` by exactly one per iteration, looking ahead at up to
three following bytes; a byte matching no branch contributes nothing
(continuation bytes are visited and skipped this way). -/
def decodeUTF8Scan : List Nat → List Nat
  | [] => []
  | a :: rest =>
    (if a &&& 0x80 = 0 then [a &&& 0x7F]
     else
       match rest with
       | [] => []
       | b :: rest2 =>
         if a &&& 0xE0 = 0xC0 ∧ b &&& 0xC0 = 0x80 then
           [((a &&& 0x1F) <<< 6) ||| (b &&& 0x3F)]
         else
           match rest2 with
           | [] => []
           | c :: rest3 =>
             if a &&& 0xF0 = 0xE0 ∧ b &&& 0xC0 = 0x80 ∧ c &&& 0xC0 = 0x80 then
               [((a &&& 0x0F) <<< 12) ||| ((b &&& 0x3F) <<< 6) ||| (c &&& 0x3F)]
             else
               match rest3 with
               | [] => []
               | d :: _ =>
                 if a &&& 0xF8 = 0xF0 ∧ b &&& 0xC0 = 0x80 ∧ c &&& 0xC0 = 0x80 ∧
                     d &&& 0xC0 = 0x80 then
                   [((a &&& 0x07) <<< 18) ||| ((b &&& 0x3F) <<< 12) |||
                    ((c &&& 0x3F) <<< 6) ||| (d &&& 0x3F)]
                 else [])
    ++ decodeUTF8Scan rest

/-- Models `decodeUTF8`: the scan above followed by `String.fromCharCode`, which
truncates each code point to an unsigned 16-bit code unit. -/
def decodeUTF8 (arr : List Nat) : List Nat :=
  (decodeUTF8Scan arr).map (· % 65536)

/-! ### Tags

The value space of the codec (`nbt.Tag` in the source): a discriminated
union keyed by the tag kind.  Numeric payloads follow the modelling
conventions above (integers as `Int`, float/double values as binary64
bit patterns, strings as UTF-16 code-unit sequences).  A compound is its
insertion-ordered key/value list (JavaScript objects preserve insertion
order for the non-numeric-string keys used here).  A list carries the
declared element kind (the numeric tag-type code) and its elements. -/

mutual

inductive Tag where
  | byteT (v : Int)
  | shortT (v : Int)
  | intT (v : Int)
  | longT (hi lo : Int)
  | floatT (bits : Nat)
  | doubleT (bits : Nat)
  | byteArrayT (vs : List Int)
  | stringT (units : List Nat)
  | listT (elemType : Int) (vs : TagSeq)
  | compoundT (entries : EntrySeq)
  | intArrayT (vs : List Int)
  | longArrayT (vs : List (Int × Int))
deriving Repr

/-- A sequence of list elements (the `value.value` array of a list tag). -/
inductive TagSeq where
  | nil
  | cons (v : Tag) (rest : TagSeq)
deriving Repr

/-- A sequence of compound entries, in object insertion order. -/
inductive EntrySeq where
  | nil
  | cons (key : List Nat) (v : Tag) (rest : EntrySeq)
deriving Repr

end

/-- The element count of a list payload (`value.value.length`). -/
def TagSeq.length : TagSeq → Nat
  | .nil => 0
  | .cons _ rest => rest.length + 1

/-- Models `nbt.tagTypes[tag.type]`: the numeric tag-type code of a tag's own
declared kind, as written by `Writer.compound` before each entry. -/
def tagNumber : Tag → Int
  | .byteT _ => 1
  | .shortT _ => 2
  | .intT _ => 3
  | .longT _ _ => 4
  | .floatT _ => 5
  | .doubleT _ => 6
  | .byteArrayT _ => 7
  | .stringT _ => 8
  | .listT _ _ => 9
  | .compoundT _ => 10
  | .intArrayT _ => 11
  | .longArrayT _ => 12

/-- Models `nbt.RootTag`: the named root compound taken by `writeUncompressed`
and produced by `parseUncompressed`. -/
structure Root where
  name : List Nat
  entries : EntrySeq
deriving Repr

/-! ### Writer

`nbt.Writer`: a byte buffer of initial capacity 1024 (zero-initialised,
as `ArrayBuffer` is) and a write cursor. -/

structure Writer where
  data : List Nat
  offset : Nat
deriving Repr

/-- Models `new nbt.Writer()`: a fresh 1024-byte zeroed buffer, cursor at 0. -/
def Writer.init : Writer := ⟨List.replicate 1024 0, 0⟩

/-- The capacity-doubling loop of `accommodate`:
`while (newLength < requiredLength) newLength *= 2`.  The source loops
unboundedly; `fuel = requiredLength` steps suffice whenever the length is
positive (which it always is: buffers start at 1024 bytes). -/
def growLength : Nat → Nat → Nat → Nat
  | 0, len, _ => len
  | fuel + 1, len, required => if len < required then growLength fuel (len * 2) required else len

/-- Models `Uint8Array.prototype.fill(0, a, b)`: zero the index range `[a, b)`. -/
def fillRange (d : List Nat) (a b : Nat) : List Nat :=
  d.mapIdx fun i x => if a ≤ i ∧ i < b then 0 else x

/-- Models `Writer.accommodate(size)`: grow (by doubling) until the buffer holds
`offset + size` bytes, copying the old contents and zero-filling any gap
between the old length and the cursor. -/
def Writer.accommodate (w : Writer) (size : Nat) : Writer :=
  let required := w.offset + size
  if required ≤ w.data.length then w
  else
    let newLength := growLength required w.data.length required
    let grown := w.data ++ List.replicate (newLength - w.data.length) 0
    let filled := if w.data.length < w.offset then fillRange grown w.data.length w.offset else grown
    ⟨filled, w.offset⟩

/-- Overwrite `bytes` into `data` starting at index `off` (the effect of
`dataView.setX` / `arrayView.set` at an in-bounds offset). -/
def storeBytes (data : List Nat) (off : Nat) (bytes : List Nat) : List Nat :=
  data.take off ++ bytes ++ data.drop (off + bytes.length)

/-- Models `Writer.write(dataType, size, value)` after the value has been turned
into its `size` big-endian bytes: accommodate, store, advance the cursor. -/
def Writer.writeBytesAt (w : Writer) (size : Nat) (bytes : List Nat) : Writer :=
  let w' := w.accommodate size
  ⟨storeBytes w'.data w'.offset bytes, w'.offset + size⟩

/-- Models `Writer.getData()`: `accommodate(0)` then the `[0, offset)` slice. -/
def Writer.getData (w : Writer) : List Nat :=
  let w' := w.accommodate 0
  w'.data.take w'.offset

/-- Models `Writer#byte` (`write('Int8', 1, v)`). -/
def Writer.byte (w : Writer) (v : Int) : Writer :=
  w.writeBytesAt 1 [jsToUint8 v]

/-- Models `Writer#short` (`write('Int16', 2, v)`). -/
def Writer.short (w : Writer) (v : Int) : Writer :=
  w.writeBytesAt 2 (int16BytesBE v)

/-- Models `Writer#int` (`write('Int32', 4, v)`). -/
def Writer.int (w : Writer) (v : Int) : Writer :=
  w.writeBytesAt 4 (int32BytesBE v)

/-- Models `Writer#float` (`write('Float32', 4, v)`): the binary64 argument is
rounded to binary32 and stored big-endian. -/
def Writer.float (w : Writer) (bits : Nat) : Writer :=
  w.writeBytesAt 4 (natToBytesBE 4 (f32BitsOfF64Bits bits))

/-- The method stored at numeric index `nbt.tagTypes.double` (= 6) on the
writer: `this.write.bind(this, 'Float64', 8)`, an 8-byte binary64 store. -/
def Writer.doubleByIndex (w : Writer) (bits : Nat) : Writer :=
  w.writeBytesAt 8 (natToBytesBE 8 (bits % 2 ^ 64))

/-- The NAMED `double` method: the source binds it as
`double = this[tagTypes["float"]]`, i.e. to the 4-byte Float32 writer,
not to the 8-byte Float64 writer stored at index 6. -/
def Writer.double : Writer → Nat → Writer := Writer.float

/-- Models `Writer#long`: two consecutive `int` writes, high half first. -/
def Writer.long (w : Writer) (hi lo : Int) : Writer :=
  (w.int hi).int lo

/-- Models `Writer#byteArray`: a 32-bit length then the raw bytes
(`arrayView.set` stores each element's low 8 bits). -/
def Writer.byteArray (w : Writer) (vs : List Int) : Writer :=
  (w.int vs.length).writeBytesAt vs.length (vs.map jsToUint8)

/-- Models `Writer#intArray`: a 32-bit length then each element via `int`. -/
def Writer.intArray (w : Writer) (vs : List Int) : Writer :=
  vs.foldl (fun w v => w.int v) (w.int vs.length)

/-- Models `Writer#longArray`: a 32-bit length then each element via `long`. -/
def Writer.longArray (w : Writer) (vs : List (Int × Int)) : Writer :=
  vs.foldl (fun w p => w.long p.1 p.2) (w.int vs.length)

/-- Models `Writer#string`: encode via the text codec, write the byte count via
`short`, then the bytes. -/
def Writer.string (w : Writer) (units : List Nat) : Writer :=
  let bytes := encodeUTF8 units
  (w.short bytes.length).writeBytesAt bytes.length bytes

/-! The mutually recursive `list`/`compound` writer methods.

Faithfulness notes, keyed to the source:
- `writeTag` is the `compound` entry dispatch
  `self[value[key].type](value[key].value)` on a tag's own kind NAME; for
  a double tag this selects the named `double` method, i.e. the 4-byte
  Float32 writer (see `Writer.double`).
- `writeTyped` is the `list` element dispatch `this[value.type](...)` on
  the list's declared kind name; a payload whose shape does not match the
  declared kind is untyped-JavaScript territory that the source's own
  types exclude, and is left as the identity here.
- `writeTypedSeq` / `writeEntries` are the `for` loop of `list` and the
  `Object.keys(value).map` loop of `compound`. -/

mutual

/-- Write one tag's payload, dispatching on the tag's own declared kind. -/
def writeTag (w : Writer) : Tag → Writer
  | .byteT x => w.byte x
  | .shortT x => w.short x
  | .intT x => w.int x
  | .longT hi lo => w.long hi lo
  | .floatT bits => w.float bits
  | .doubleT bits => w.double bits
  | .byteArrayT vs => w.byteArray vs
  | .stringT units => w.string units
  | .listT t vs => writeTypedSeq ((w.byte t).int vs.length) t vs
  | .compoundT es => (writeEntries w es).byte 0
  | .intArrayT vs => w.intArray vs
  | .longArrayT vs => w.longArray vs

/-- Write one list element via the encoder selected by the list's
declared kind `t`. -/
def writeTyped (w : Writer) (t : Int) : Tag → Writer
  | .byteT x => if t = 1 then w.byte x else w
  | .shortT x => if t = 2 then w.short x else w
  | .intT x => if t = 3 then w.int x else w
  | .longT hi lo => if t = 4 then w.long hi lo else w
  | .floatT bits => if t = 5 then w.float bits else w
  | .doubleT bits => if t = 6 then w.double bits else w
  | .byteArrayT vs => if t = 7 then w.byteArray vs else w
  | .stringT units => if t = 8 then w.string units else w
  | .listT t' vs => if t = 9 then writeTypedSeq ((w.byte t').int vs.length) t' vs else w
  | .compoundT es => if t = 10 then (writeEntries w es).byte 0 else w
  | .intArrayT vs => if t = 11 then w.intArray vs else w
  | .longArrayT vs => if t = 12 then w.longArray vs else w

/-- The element loop of `Writer#list`. -/
def writeTypedSeq (w : Writer) (t : Int) : TagSeq → Writer
  | .nil => w
  | .cons v rest => writeTypedSeq (writeTyped w t v) t rest

/-- The entry loop of `Writer#compound`: each entry's kind byte, its key
via `string`, then its payload by its own kind. -/
def writeEntries (w : Writer) : EntrySeq → Writer
  | .nil => w
  | .cons k v rest => writeEntries (writeTag ((w.byte (tagNumber v)).string k) v) rest

end

/-- Models `Writer#compound`: the entries in iteration order, then one End byte. -/
def Writer.compound (w : Writer) (es : EntrySeq) : Writer :=
  (writeEntries w es).byte 0

/-- Models `Writer#list`: the element-kind byte, a 32-bit count, then each
element via the encoder selected by the declared kind. -/
def Writer.list (w : Writer) (t : Int) (vs : TagSeq) : Writer :=
  writeTypedSeq ((w.byte t).int vs.length) t vs

/-! ### Reader

`nbt.Reader`: an immutable byte source and a movable cursor.  The cursor
is an `Int` because `Reader#string` adds a SIGNED 16-bit length to it, so
it can move backwards (and below zero).  `DataView.getX` raises a
`RangeError` when the requested bytes are not inside the buffer, modelled
as `none`. -/

structure RState where
  data : List Nat
  offset : Int
deriving Repr, DecidableEq

/-- A reader step: either a value and the successor state, or a thrown
error (`RangeError` / `TypeError`), modelled as `none`. -/
def ReadM (α : Type) : Type := RState → Option (α × RState)

/-- Chain two reader steps (a thrown error propagates). -/
def rbind {α β : Type} (m : ReadM α) (f : α → ReadM β) : ReadM β :=
  fun s => match m s with
  | none => none
  | some (a, s') => f a s'

/-- A reader step that returns without reading. -/
def rpure {α : Type} (a : α) : ReadM α := fun s => some (a, s)

/-- A reader step that throws. -/
def rfail {α : Type} : ReadM α := fun _ => none

/-- Bounds check of `DataView.getX` at the cursor for a `size`-byte read. -/
def RState.inBounds (s : RState) (size : Nat) : Prop :=
  0 ≤ s.offset ∧ s.offset + size ≤ s.data.length

instance (s : RState) (size : Nat) : Decidable (s.inBounds size) := by
  unfold RState.inBounds; infer_instance

/-- The byte at cursor displacement `i`. -/
def RState.byteAt (s : RState) (i : Nat) : Nat :=
  s.data.getD (s.offset.toNat + i) 0

/-- Models `Reader#byte` (`read('Int8', 1)`). -/
def readByte : ReadM Int := fun s =>
  if s.inBounds 1 then some (jsInt8OfByte (s.byteAt 0), {s with offset := s.offset + 1})
  else none

/-- Models `Reader#short` (`read('Int16', 2)`), big-endian signed. -/
def readShort : ReadM Int := fun s =>
  if s.inBounds 2 then
    some (jsInt16OfBytes (s.byteAt 0) (s.byteAt 1), {s with offset := s.offset + 2})
  else none

/-- Models `Reader#int` (`read('Int32', 4)`), big-endian signed. -/
def readInt : ReadM Int := fun s =>
  if s.inBounds 4 then
    some (jsInt32OfBytes (s.byteAt 0) (s.byteAt 1) (s.byteAt 2) (s.byteAt 3),
      {s with offset := s.offset + 4})
  else none

/-- Models `Reader#float` (`read('Float32', 4)`): the stored binary32 widened to
the binary64 number the caller receives. -/
def readFloat : ReadM Nat := fun s =>
  if s.inBounds 4 then
    some (f64BitsOfF32Bits
      (s.byteAt 0 * 16777216 + s.byteAt 1 * 65536 + s.byteAt 2 * 256 + s.byteAt 3),
      {s with offset := s.offset + 4})
  else none

/-- Models `Reader#double` (`read('Float64', 8)`): the stored binary64 pattern. -/
def readDouble : ReadM Nat := fun s =>
  if s.inBounds 8 then
    some ((((((((s.byteAt 0 * 256 + s.byteAt 1) * 256 + s.byteAt 2) * 256 + s.byteAt 3) * 256 +
      s.byteAt 4) * 256 + s.byteAt 5) * 256 + s.byteAt 6) * 256 + s.byteAt 7),
      {s with offset := s.offset + 8})
  else none

/-- Models `Reader#long`: two consecutive `int` reads, `[upper, lower]`. -/
def readLong : ReadM (Int × Int) :=
  rbind readInt fun hi => rbind readInt fun lo => rpure (hi, lo)

/-- Run a reader step `n` times, collecting the results in order (the
`for (i = 0; i < length; i++)` loops of the array decoders; a negative
length runs zero iterations). -/
def readTimes {α : Type} : Nat → ReadM α → ReadM (List α)
  | 0, _ => rpure []
  | n + 1, m => rbind m fun a => rbind (readTimes n m) fun as => rpure (a :: as)

/-- Models `ArrayBuffer`/`Uint8Array` slicing with the ECMAScript relative-index
convention: a negative index counts from the end, and the result is empty
when the resolved end does not exceed the resolved start.  Used by
`Reader#string` (`sliceUint8Array`); it never throws. -/
def jsSlice (arr : List Nat) (b e : Int) : List Nat :=
  let n := arr.length
  let rel : Int → Nat := fun i => if i < 0 then (max (n + i) 0).toNat else min i.toNat n
  ((arr.drop (rel b)).take (rel e - rel b))

/-- Models `Reader#string`: a signed 16-bit length via `short`, then a slice of
that many bytes decoded by the text codec; the cursor advances by the
(possibly negative) length. -/
def readString : ReadM (List Nat) := fun s =>
  match readShort s with
  | none => none
  | some (len, s1) =>
    some (decodeUTF8 (jsSlice s1.data s1.offset (s1.offset + len)),
      {s1 with offset := s1.offset + len})

/-- Requests of the recursive part of the reader: one payload of a given
kind (`this[type]()`), a typed element sequence (the `list` loop), or the
sentinel-terminated entry loop of `compound` with its accumulator. -/
inductive RReq where
  | payload (t : Int)
  | listElems (t : Int) (n : Nat)
  | compoundLoop (acc : EntrySeq)

/-- Results of the recursive reader requests. -/
inductive RRes where
  | tagR (v : Tag)
  | seqR (vs : TagSeq)
  | entriesR (es : EntrySeq)

/-- The assignment `values[name] = ...` on a JavaScript object: overwrite
in place if the key exists, append otherwise.  (Keys arising here are
modelled in insertion order; the source relies on the same order when the
compound is re-encoded.) -/
def jsObjectSet (es : EntrySeq) (k : List Nat) (v : Tag) : EntrySeq :=
  match es with
  | .nil => .cons k v .nil
  | .cons k' v' rest => if k' = k then .cons k v rest else .cons k' v' (jsObjectSet rest k v)

/-- The mutually recursive `list`/`compound` reader methods, joined into a
single function structurally recursive on `fuel` so that concrete
applications compute.  The fuel bounds the number of recursive dispatch
steps; `parseUncompressed` passes the input length plus one, which covers
every input that the source itself would finish on (each step consumes at
least one byte on such inputs; inputs where the source's `while (true)`
loop would not terminate exhaust the fuel and are reported as `none`).

Faithfulness notes, keyed to the source:
- `.payload t` is `this[type]()`; a `type` outside 1–12 has no method
  (`this[type]` is `undefined`), so calling it throws — modelled by
  `rfail`.  This includes End (0): the reader only consumes End inside the
  `compound` loop.
- `.listElems` is the element loop of `list` (zero iterations when the
  read 32-bit count is ≤ 0, as in the source).
- `.compoundLoop` is the sentinel-terminated `while (true)` entry loop. -/
def readRec : Nat → RReq → ReadM RRes
  | 0, _ => rfail
  | fuel + 1, .payload t =>
    if t = 1 then rbind readByte fun v => rpure (.tagR (.byteT v))
    else if t = 2 then rbind readShort fun v => rpure (.tagR (.shortT v))
    else if t = 3 then rbind readInt fun v => rpure (.tagR (.intT v))
    else if t = 4 then rbind readLong fun p => rpure (.tagR (.longT p.1 p.2))
    else if t = 5 then rbind readFloat fun v => rpure (.tagR (.floatT v))
    else if t = 6 then rbind readDouble fun v => rpure (.tagR (.doubleT v))
    else if t = 7 then
      rbind readInt fun len => rbind (readTimes len.toNat readByte) fun vs =>
        rpure (.tagR (.byteArrayT vs))
    else if t = 8 then rbind readString fun u => rpure (.tagR (.stringT u))
    else if t = 9 then
      rbind readByte fun et => rbind readInt fun len =>
        rbind (readRec fuel (.listElems et len.toNat)) fun r =>
          match r with
          | .seqR vs => rpure (.tagR (.listT et vs))
          | _ => rfail
    else if t = 10 then
      rbind (readRec fuel (.compoundLoop .nil)) fun r =>
        match r with
        | .entriesR es => rpure (.tagR (.compoundT es))
        | _ => rfail
    else if t = 11 then
      rbind readInt fun len => rbind (readTimes len.toNat readInt) fun vs =>
        rpure (.tagR (.intArrayT vs))
    else if t = 12 then
      rbind readInt fun len => rbind (readTimes len.toNat readLong) fun vs =>
        rpure (.tagR (.longArrayT vs))
    else rfail
  | _fuel + 1, .listElems _ 0 => rpure (.seqR .nil)
  | fuel + 1, .listElems t (n + 1) =>
    rbind (readRec fuel (.payload t)) fun r =>
      match r with
      | .tagR v =>
        rbind (readRec fuel (.listElems t n)) fun r2 =>
          match r2 with
          | .seqR vs => rpure (.seqR (.cons v vs))
          | _ => rfail
      | _ => rfail
  | fuel + 1, .compoundLoop acc =>
    rbind readByte fun t =>
      if t = 0 then rpure (.entriesR acc)
      else
        rbind readString fun name =>
          rbind (readRec fuel (.payload t)) fun r =>
            match r with
            | .tagR v => readRec fuel (.compoundLoop (jsObjectSet acc name v))
            | _ => rfail

/-- Models `Reader#compound` with a given recursion-fuel bound. -/
def readCompound (fuel : Nat) : ReadM EntrySeq :=
  rbind (readRec fuel (.compoundLoop .nil)) fun r =>
    match r with
    | .entriesR es => rpure es
    | _ => rfail

/-! ### Root codec -/

/-- The error kinds surfaced by the top-level functions. -/
inductive JsErr where
  | falsyArg
  | topTagNotCompound
  | readError
  | zlibUnavailable
  | gzipError
deriving Repr, DecidableEq

/-- Models `nbt.writeUncompressed` on a non-null root: the Compound kind byte,
the name via `string`, the body via `compound`, then `getData()`. -/
def writeUncompressedBytes (r : Root) : List Nat :=
  (((Writer.init.byte 10).string r.name).compound r.entries).getData

/-- Models `nbt.writeUncompressed`.  The argument is an `Option` because the
falsy-argument precondition check only fires for a null/undefined
argument (`!value` is false for every object). -/
def writeUncompressed : Option Root → Except JsErr (List Nat)
  | none => .error .falsyArg
  | some r => .ok (writeUncompressedBytes r)

/-- Models `nbt.parseUncompressed` on a non-null buffer: read one kind byte,
fail unless it is Compound (10), then the name and the body. -/
def parseUncompressedBytes (d : List Nat) : Except JsErr Root :=
  match readByte ⟨d, 0⟩ with
  | none => .error .readError
  | some (t, s1) =>
    if t = 10 then
      match readString s1 with
      | none => .error .readError
      | some (name, s2) =>
        match readCompound (d.length + 1) s2 with
        | none => .error .readError
        | some (es, _) => .ok ⟨name, es⟩
    else .error .topTagNotCompound

/-- Models `nbt.parseUncompressed`.  As with `writeUncompressed`, only a
null/undefined argument is caught by the falsy-argument check; an empty
buffer is an object and proceeds to the first read. -/
def parseUncompressed : Option (List Nat) → Except JsErr Root
  | none => .error .falsyArg
  | some d => parseUncompressedBytes d

/-- Models `hasGzipHeader`: slice the first two bytes and compare with the gzip
magic `0x1F 0x8B`. -/
def hasGzipHeader (d : List Nat) : Bool :=
  let head := d.take 2
  head.length == 2 && head.getD 0 0 == 0x1f && head.getD 1 0 == 0x8b

/-- One invocation of the `parse` callback `(error, result)`. -/
inductive CallbackCall where
  | withResult (r : Root)
  | withError (e : JsErr)
deriving Repr

/-- What one call of `nbt.parse` does, observationally: throw
synchronously, invoke the callback synchronously, or hand the (converted)
buffer to the external `zlib.gunzip` capability together with the
continuation `gunzipContinuation` (the asynchronous path). -/
inductive ParseOutcome where
  | threw (e : JsErr)
  | called (c : CallbackCall)
  | delegated (buf : List Nat)
deriving Repr

/-- Models `nbt.parse`.  `zlibAvailable` models whether the `zlib` binding
resolved at module load (`require('zlib')` / `window.zlib`); the data
argument is `none` for a null/undefined argument.  On the synchronous
path a `parseUncompressed` throw propagates out of `parse` before the
callback is invoked. -/
def parse (zlibAvailable : Bool) : Option (List Nat) → ParseOutcome
  | none => .threw .falsyArg
  | some d =>
    if hasGzipHeader d = false then
      match parseUncompressedBytes d with
      | .ok r => .called (.withResult r)
      | .error e => .threw e
    else if zlibAvailable = false then .called (.withError .zlibUnavailable)
    else .delegated d

/-- The callback closure `parse` passes to `zlib.gunzip`: a gunzip error
is surfaced verbatim through the callback; otherwise the decompressed
bytes are fed to `parseUncompressed` and the callback receives the
result (a `parseUncompressed` throw inside the closure propagates,
uncaught). -/
def gunzipContinuation (res : Except Unit (List Nat)) : ParseOutcome :=
  match res with
  | .error _ => .called (.withError .gzipError)
  | .ok u =>
    match parseUncompressedBytes u with
    | .ok r => .called (.withResult r)
    | .error e => .threw e

/-- The per-code-unit byte count asserted by the spec's branch table for
`encodeUTF8` (1 below 0x80, 2 below 0x800, 3 below 0x10000, 4 otherwise),
stated over the units the encoder actually iterates. -/
def utf8UnitByteCount (c : Nat) : Nat :=
  if c < 0x80 then 1 else if c < 0x800 then 2 else if c < 0x10000 then 3 else 4

/-! ## Supporting lemmas -/

theorem growLength_ge_start : ∀ (fuel len req : Nat), len ≤ growLength fuel len req
  | 0, _, _ => Nat.le_refl _
  | fuel + 1, len, req => by
    unfold growLength
    split
    · exact Nat.le_trans (by omega) (growLength_ge_start fuel (len * 2) req)
    · exact Nat.le_refl _

theorem growLength_reaches : ∀ (fuel len req : Nat), 1 ≤ len → req ≤ len + fuel →
    req ≤ growLength fuel len req
  | 0, _, _, _, h => by
    unfold growLength; omega
  | fuel + 1, len, req, h1, h => by
    unfold growLength
    split
    · exact growLength_reaches fuel (len * 2) req (by omega) (by omega)
    · omega

theorem fillRange_length (d : List Nat) (a b : Nat) :
    (fillRange d a b).length = d.length := by
  simp [fillRange, List.length_mapIdx]

theorem accommodate_grow (w : Writer) (size : Nat) (h2 : w.offset ≤ w.data.length)
    (hc : ¬ w.offset + size ≤ w.data.length) :
    w.accommodate size =
      ⟨w.data ++ List.replicate
        (growLength (w.offset + size) w.data.length (w.offset + size) - w.data.length) 0,
       w.offset⟩ := by
  have hf : ¬ w.data.length < w.offset := by omega
  simp only [Writer.accommodate, hc, if_false, hf]

theorem accommodate_offset (w : Writer) (size : Nat) :
    (w.accommodate size).offset = w.offset := by
  by_cases hc : w.offset + size ≤ w.data.length <;>
    by_cases hf : w.data.length < w.offset <;>
    simp only [Writer.accommodate, hc, hf, if_true, if_false]

theorem accommodate_capacity (w : Writer) (size : Nat) (h1 : 1 ≤ w.data.length) :
    w.offset + size ≤ (w.accommodate size).data.length := by
  have hg : w.offset + size ≤ growLength (w.offset + size) w.data.length (w.offset + size) :=
    growLength_reaches _ _ _ h1 (by omega)
  have hge : w.data.length ≤ growLength (w.offset + size) w.data.length (w.offset + size) :=
    growLength_ge_start _ _ _
  by_cases hc : w.offset + size ≤ w.data.length <;>
    by_cases hf : w.data.length < w.offset <;>
    simp only [Writer.accommodate, hc, hf, if_true, if_false, fillRange_length,
      List.length_append, List.length_replicate] <;>
    omega

theorem accommodate_data_length_mono (w : Writer) (size : Nat) :
    w.data.length ≤ (w.accommodate size).data.length := by
  by_cases hc : w.offset + size ≤ w.data.length <;>
    by_cases hf : w.data.length < w.offset <;>
    simp only [Writer.accommodate, hc, hf, if_true, if_false, fillRange_length,
      List.length_append, List.length_replicate] <;>
    omega

theorem accommodate_take (w : Writer) (size : Nat) (h2 : w.offset ≤ w.data.length) :
    (w.accommodate size).data.take w.offset = w.data.take w.offset := by
  by_cases hc : w.offset + size ≤ w.data.length
  · simp only [Writer.accommodate, hc, if_true]
  · rw [accommodate_grow w size h2 hc]
    exact List.take_append_of_le_length h2

theorem storeBytes_length (d : List Nat) (off : Nat) (bytes : List Nat)
    (h : off + bytes.length ≤ d.length) :
    (storeBytes d off bytes).length = d.length := by
  simp only [storeBytes, List.length_append, List.length_take, List.length_drop]
  omega

theorem storeBytes_take (d : List Nat) (off : Nat) (bytes : List Nat)
    (h : off ≤ d.length) :
    (storeBytes d off bytes).take off = d.take off := by
  have hlen : (List.take off d).length = off := by
    simp only [List.length_take]; omega
  unfold storeBytes
  rw [List.append_assoc, List.take_append_of_le_length (by omega), List.take_take]
  simp [Nat.min_self]

theorem storeBytes_drop (d : List Nat) (off : Nat) (bytes : List Nat)
    (h : off ≤ d.length) :
    (storeBytes d off bytes).drop off = bytes ++ d.drop (off + bytes.length) := by
  have hlen : (List.take off d).length = off := by
    simp only [List.length_take]; omega
  unfold storeBytes
  rw [List.append_assoc, List.drop_append_eq_append_drop, hlen]
  simp

theorem take_eq_of_take_eq {d₁ d₂ : List Nat} (a b : Nat)
    (h : d₁.take (a + b) = d₂.take (a + b)) :
    (d₁.drop a).take b = (d₂.drop a).take b := by
  have h1 : (d₁.take (a + b)).drop a = (d₂.take (a + b)).drop a := by rw [h]
  simpa [List.drop_take, Nat.add_sub_cancel_left] using h1

/-- The combined effect of one `write`-style store (`accommodate`, store,
advance): offset bookkeeping, buffer-length bookkeeping, preservation of
the bytes before the cursor, and the stored bytes themselves. -/
theorem writeBytesAt_spec (w : Writer) (size : Nat) (bytes : List Nat)
    (hb : bytes.length = size) (h1 : 1 ≤ w.data.length) (h2 : w.offset ≤ w.data.length) :
    (w.writeBytesAt size bytes).offset = w.offset + size ∧
    1 ≤ (w.writeBytesAt size bytes).data.length ∧
    (w.writeBytesAt size bytes).offset ≤ (w.writeBytesAt size bytes).data.length ∧
    (w.writeBytesAt size bytes).data.take w.offset = w.data.take w.offset ∧
    ((w.writeBytesAt size bytes).data.drop w.offset).take size = bytes := by
  have hcap : w.offset + size ≤ (w.accommodate size).data.length :=
    accommodate_capacity w size h1
  have hoff : (w.accommodate size).offset = w.offset := accommodate_offset w size
  have htake : (w.accommodate size).data.take w.offset = w.data.take w.offset :=
    accommodate_take w size h2
  have hsl : (storeBytes (w.accommodate size).data (w.accommodate size).offset bytes).length
      = (w.accommodate size).data.length :=
    storeBytes_length ((w.accommodate size).data) ((w.accommodate size).offset) bytes
      (by rw [hoff, hb]; omega)
  have hsl2 : (storeBytes (w.accommodate size).data w.offset bytes).length
      = (w.accommodate size).data.length := by rw [← hoff]; exact hsl
  have hmono : w.data.length ≤ (w.accommodate size).data.length :=
    accommodate_data_length_mono w size
  refine ⟨by simp [Writer.writeBytesAt, hoff], ?_, ?_, ?_, ?_⟩
  · simp only [Writer.writeBytesAt, hoff, hsl2]
    omega
  · simp only [Writer.writeBytesAt, hoff, hsl2]
    omega
  · simp only [Writer.writeBytesAt, hoff]
    rw [storeBytes_take ((w.accommodate size).data) w.offset bytes (by omega)]
    exact htake
  · simp only [Writer.writeBytesAt, hoff]
    rw [storeBytes_drop ((w.accommodate size).data) w.offset bytes (by omega)]
    rw [← hb, List.take_left]

/-! ## Claims -/

set_option maxRecDepth 40000

/-- Claim C1: the spec asserts `decode(encode(v)) == v` for every tag kind,
double included.  This fails on the code: the named `Writer.double` alias is
bound to the Float32 writer (`double = this[tagTypes["float"]]`), so the
compound encoder emits a 4-byte payload for a double entry, while
`Reader.double` consumes 8 bytes.  Decoding the encoding of the root
compound `{x: {type: 'double', value: 0.0}}` (name `""`) therefore throws a
`RangeError` instead of returning the value: the encoder produces exactly
the 12 bytes below (4-byte double payload), and the decoder fails on them. -/
theorem double_roundtrip_failure :
    writeUncompressed (some ⟨[], .cons [120] (.doubleT 0) .nil⟩)
      = .ok [10, 0, 0, 6, 0, 1, 120, 0, 0, 0, 0, 0] ∧
    parseUncompressed (some [10, 0, 0, 6, 0, 1, 120, 0, 0, 0, 0, 0])
      = .error .readError :=
  ⟨rfl, rfl⟩

/-- Claim C2: the spec asserts that the named `double` writer stores an
8-byte big-endian binary64 and advances the cursor by 8.  In the code the
named alias is `double = this[tagTypes["float"]]`: it IS the Float32
writer, stores 4 bytes and advances the cursor by 4; only the
numerically-indexed method `writer[6]` (`Writer.doubleByIndex` here) is
the 8-byte binary64 writer. -/
theorem writer_double_alias_is_float32 :
    Writer.double = Writer.float ∧
    (Writer.init.double 0).offset = 4 ∧
    (Writer.init.double 0).getData = [0, 0, 0, 0] ∧
    (Writer.init.doubleByIndex 0).offset = 8 :=
  ⟨rfl, rfl, rfl, rfl⟩

/-- Claim C8 (counterexample): the claim counts "1 (Compound tag) + 2
(zero-length name) + 1 (End byte) = 4 bytes of body AFTER the Compound tag
byte".  The encoder emits 4 bytes in total for an empty root compound with
an empty name, so only 3 bytes follow the Compound tag byte, not 4. -/
theorem writeUncompressed_empty_after_tag_bytes :
    writeUncompressedBytes ⟨[], .nil⟩ = [10, 0, 0, 0] ∧
    ((writeUncompressedBytes ⟨[], .nil⟩).drop 1).length = 3 ∧
    (3 : Nat) ≠ 4 :=
  ⟨rfl, rfl, by decide⟩

/-- Claim C8 (amended): encoding an empty compound with a zero-length name
via `writeUncompressed` produces exactly 4 bytes in total — 1 Compound tag
byte + 2 bytes of zero name length + 1 End byte — i.e. 3 bytes of body
after the Compound tag byte. -/
theorem writeUncompressed_empty_four_bytes_total :
    writeUncompressed (some ⟨[], .nil⟩) = .ok [10, 0, 0, 0] ∧
    (writeUncompressedBytes ⟨[], .nil⟩).length = 4 :=
  ⟨rfl, rfl⟩

/-- Claim C9 (counterexample): the claim says an absent OR EMPTY required
argument signals the precondition violation before any decoding work.  An
empty buffer is a truthy JavaScript object, so `parseUncompressed` on an
empty buffer passes the falsy-argument check, performs the first read, and
fails with a `RangeError` — a different error than the precondition
violation the claim predicts. -/
theorem empty_buffer_bypasses_precondition_check :
    parseUncompressed (some []) = .error .readError ∧
    JsErr.readError ≠ JsErr.falsyArg :=
  ⟨rfl, by decide⟩

/-- Claim C9 (amended): an ABSENT (null/undefined) required argument makes
`writeUncompressed`, `parseUncompressed` and `parse` signal the
precondition violation immediately and synchronously; an EMPTY buffer is
not caught by that check — `parseUncompressed`/`parse` proceed into
decoding and fail with a bounds error on the first read instead. -/
theorem falsy_argument_checks :
    writeUncompressed none = .error .falsyArg ∧
    parseUncompressed none = .error .falsyArg ∧
    (∀ avail : Bool, parse avail none = .threw .falsyArg) ∧
    parseUncompressedBytes [] = .error .readError ∧
    (∀ avail : Bool, parse avail (some []) = .threw .readError) :=
  ⟨rfl, rfl, fun _ => rfl, rfl, fun _ => rfl⟩

/-- Claim C6: on any input whose first byte is not the Compound tag code
(10), `parseUncompressed` raises the format violation synchronously.  The
statement holds for EVERY continuation `rest` of the input — including the
empty one, where any attempt to read the name or body would instead have
produced a bounds error — so the error is raised before any further byte
is read. -/
theorem parseUncompressed_rejects_non_compound_first_byte
    (b : Nat) (rest : List Nat) (hb : b < 256) (hne : b ≠ 10) :
    parseUncompressed (some (b :: rest)) = .error .topTagNotCompound := by
  have hcond : (RState.mk (b :: rest) 0).inBounds 1 := by
    constructor
    · show (0 : Int) ≤ 0
      omega
    · show (0 : Int) + 1 ≤ ((b :: rest).length : Int)
      simp only [List.length_cons]
      omega
  have hbyte : readByte ⟨b :: rest, 0⟩ = some (jsInt8OfByte b, ⟨b :: rest, 1⟩) := by
    simp [readByte, hcond, RState.byteAt]
  have hne10 : jsInt8OfByte b ≠ 10 := by
    unfold jsInt8OfByte
    split <;> omega
  simp [parseUncompressed, parseUncompressedBytes, hbyte, hne10]

/-- Witness for `parseUncompressed_rejects_non_compound_first_byte` at the
spec's own example: input starting with the Byte tag code (1). -/
theorem parseUncompressed_rejects_non_compound_first_byte_witness :
    parseUncompressed (some [1]) = .error .topTagNotCompound :=
  parseUncompressed_rejects_non_compound_first_byte 1 [] (by decide) (by decide)

/-- Claim C7: `parse` dispatches on the gzip magic.  Without the 1F 8B
prefix it parses synchronously and invokes the callback at once with the
result; with the prefix and no zlib capability it invokes the callback
with the availability error (it does not throw); with the prefix and zlib
available it hands the buffer to `zlib.gunzip` together with the
continuation `gunzipContinuation`, which feeds the decompressed bytes to
`parseUncompressed` and invokes the callback with that result (or with the
gunzip error). -/
theorem parse_gzip_dispatch :
    (∀ (avail : Bool) (d : List Nat) (r : Root), hasGzipHeader d = false →
      parseUncompressedBytes d = .ok r →
      parse avail (some d) = .called (.withResult r)) ∧
    (∀ d : List Nat, hasGzipHeader d = true →
      parse false (some d) = .called (.withError .zlibUnavailable)) ∧
    (∀ d : List Nat, hasGzipHeader d = true →
      parse true (some d) = .delegated d) ∧
    (∀ (u : List Nat) (r : Root), parseUncompressedBytes u = .ok r →
      gunzipContinuation (.ok u) = .called (.withResult r)) ∧
    (∀ e : Unit, gunzipContinuation (.error e) = .called (.withError .gzipError)) := by
  refine ⟨?_, ?_, ?_, ?_, ?_⟩
  · intro avail d r hgz hp
    simp [parse, hgz, hp]
  · intro d hgz
    simp [parse, hgz]
  · intro d hgz
    simp [parse, hgz]
  · intro u r hp
    simp [gunzipContinuation, hp]
  · intro e
    rfl

/-- Witness for `parse_gzip_dispatch`: the 4-byte encoding of the empty
root compound is parsed synchronously (no gzip header), and a buffer
starting with 1F 8B goes to the availability error / the delegation path;
the gunzip continuation parses the same 4 bytes. -/
theorem parse_gzip_dispatch_witness :
    parse true (some [10, 0, 0, 0]) = .called (.withResult ⟨[], .nil⟩) ∧
    parse false (some [0x1f, 0x8b]) = .called (.withError .zlibUnavailable) ∧
    parse true (some [0x1f, 0x8b]) = .delegated [0x1f, 0x8b] ∧
    gunzipContinuation (.ok [10, 0, 0, 0]) = .called (.withResult ⟨[], .nil⟩) ∧
    gunzipContinuation (.error ()) = .called (.withError .gzipError) :=
  ⟨parse_gzip_dispatch.1 true [10, 0, 0, 0] ⟨[], .nil⟩ (by decide) (by rfl),
   parse_gzip_dispatch.2.1 [0x1f, 0x8b] (by decide),
   parse_gzip_dispatch.2.2.1 [0x1f, 0x8b] (by decide),
   parse_gzip_dispatch.2.2.2.1 [10, 0, 0, 0] ⟨[], .nil⟩ (by rfl),
   parse_gzip_dispatch.2.2.2.2 ()⟩

/-- Claim C10: the gzip check is true exactly when at least two bytes
exist and they are 1F then 8B; in particular every non-empty input
shorter than two bytes fails it and is fed directly and synchronously to
`parseUncompressed`. -/
theorem short_inputs_parse_directly :
    (∀ (avail : Bool) (d : List Nat), d ≠ [] → d.length < 2 →
      hasGzipHeader d = false ∧
      parse avail (some d) =
        (match parseUncompressedBytes d with
         | .ok r => .called (.withResult r)
         | .error e => .threw e)) ∧
    (∀ d : List Nat, hasGzipHeader d = true ↔
      2 ≤ d.length ∧ d.getD 0 0 = 0x1f ∧ d.getD 1 0 = 0x8b) := by
  have hchar : ∀ d : List Nat, hasGzipHeader d = true ↔
      2 ≤ d.length ∧ d.getD 0 0 = 0x1f ∧ d.getD 1 0 = 0x8b := by
    intro d
    match d with
    | [] => simp [hasGzipHeader]
    | [a] => simp [hasGzipHeader]
    | a :: b :: rest =>
      simp [hasGzipHeader, List.getD_cons_succ, List.length_cons]
  refine ⟨?_, hchar⟩
  intro avail d hne hlen
  have hgz : hasGzipHeader d = false := by
    cases hh : hasGzipHeader d
    · rfl
    · exfalso
      have := (hchar d).mp hh
      omega
  refine ⟨hgz, ?_⟩
  simp [parse, hgz]

/-- Witness for `short_inputs_parse_directly`: the one-byte input `[1]` is
not treated as gzip and reaches `parseUncompressed` synchronously (whose
format check then throws, since 1 is not the Compound code). -/
theorem short_inputs_parse_directly_witness :
    hasGzipHeader [1] = false ∧
    parse true (some [1]) = .threw .topTagNotCompound ∧
    (hasGzipHeader [0x1f, 0x8b] = true ↔
      2 ≤ ([0x1f, 0x8b] : List Nat).length ∧
      ([0x1f, 0x8b] : List Nat).getD 0 0 = 0x1f ∧
      ([0x1f, 0x8b] : List Nat).getD 1 0 = 0x8b) :=
  ⟨(short_inputs_parse_directly.1 true [1] (by decide) (by decide)).1,
   ((short_inputs_parse_directly.1 true [1] (by decide) (by decide)).2).trans (by rfl),
   short_inputs_parse_directly.2 [0x1f, 0x8b]⟩

/-- Claim C4 (counterexample): the claim asserts that a code point at or
above 0x10000 is emitted as a single 4-byte sequence.  `encodeUTF8`
iterates UTF-16 code units (`charCodeAt`), so the code point U+10000 —
the JavaScript string consisting of the surrogate pair 0xD800 0xDC00 —
is emitted as two 3-byte sequences (6 bytes), not as the single 4-byte
sequence F0 90 80 80 that standard UTF-8 (and the claim) prescribes. -/
theorem encodeUTF8_supplementary_counterexample :
    encodeUTF8 [0xD800, 0xDC00] = [0xED, 0xA0, 0x80, 0xED, 0xB0, 0x80] ∧
    encodeUTF8 [0xD800, 0xDC00] ≠ [0xF0, 0x90, 0x80, 0x80] :=
  ⟨rfl, by decide⟩

/-- Claim C4 (amended): `encodeUTF8` emits, for each UTF-16 CODE UNIT (not
code point), 1 byte below 0x80, 2 bytes below 0x800, and 3 bytes below
0x10000 (every code unit is), with standard UTF-8 continuation packing per
unit; consequently a supplementary code point — a surrogate pair — is
emitted as two 3-byte sequences totalling 6 bytes (CESU-8 style), and the
4-byte branch is unreachable on real strings. -/
theorem encodeUTF8_per_code_unit :
    (∀ units : List Nat,
      (encodeUTF8 units).length = (units.map utf8UnitByteCount).sum) ∧
    (∀ hi lo : Nat, 0xD800 ≤ hi → hi < 0xDC00 → 0xDC00 ≤ lo → lo < 0xE000 →
      encodeUTF8 [hi, lo] =
        [0xE0 ||| (hi >>> 12), 0x80 ||| ((hi >>> 6) &&& 0x3F), 0x80 ||| (hi &&& 0x3F),
         0xE0 ||| (lo >>> 12), 0x80 ||| ((lo >>> 6) &&& 0x3F), 0x80 ||| (lo &&& 0x3F)] ∧
      (encodeUTF8 [hi, lo]).length = 6) := by
  constructor
  · intro units
    induction units with
    | nil => rfl
    | cons c rest ih =>
      by_cases h1 : c < 0x80
      · simp [encodeUTF8, utf8UnitByteCount, h1, ih]; omega
      · by_cases h2 : c < 0x800
        · simp [encodeUTF8, utf8UnitByteCount, h1, h2, ih]; omega
        · by_cases h3 : c < 0x10000
          · simp [encodeUTF8, utf8UnitByteCount, h1, h2, h3, ih]; omega
          · simp [encodeUTF8, utf8UnitByteCount, h1, h2, h3, ih]; omega
  · intro hi lo hh1 hh2 hl1 hl2
    have nh1 : ¬ hi < 0x80 := by omega
    have nh2 : ¬ hi < 0x800 := by omega
    have nh3 : hi < 0x10000 := by omega
    have nl1 : ¬ lo < 0x80 := by omega
    have nl2 : ¬ lo < 0x800 := by omega
    have nl3 : lo < 0x10000 := by omega
    constructor
    · simp [encodeUTF8, nh1, nh2, nh3, nl1, nl2, nl3]
    · simp [encodeUTF8, nh1, nh2, nh3, nl1, nl2, nl3]

/-- Witness for `encodeUTF8_per_code_unit` at the surrogate pair for
U+10000 (0xD800 0xDC00) together with an ASCII unit. -/
theorem encodeUTF8_per_code_unit_witness :
    (encodeUTF8 [104, 0xD800, 0xDC00]).length
      = (([104, 0xD800, 0xDC00] : List Nat).map utf8UnitByteCount).sum ∧
    encodeUTF8 [0xD800, 0xDC00] = [237, 160, 128, 237, 176, 128] ∧
    (encodeUTF8 [0xD800, 0xDC00]).length = 6 :=
  ⟨encodeUTF8_per_code_unit.1 [104, 0xD800, 0xDC00],
   (encodeUTF8_per_code_unit.2 0xD800 0xDC00 (by decide) (by decide) (by decide)
     (by decide)).1,
   (encodeUTF8_per_code_unit.2 0xD800 0xDC00 (by decide) (by decide) (by decide)
     (by decide)).2⟩

/-- Applying `accommodate` when the buffer already holds the
required bytes is the identity. -/
theorem accommodate_id (w : Writer) (size : Nat) (h : w.offset + size ≤ w.data.length) :
    w.accommodate size = w := by
  simp only [Writer.accommodate, h, if_true]

/-- Claim C5: growing the buffer (any requested size, including growth
past the initial 1024-byte capacity) leaves every byte in `[0, cursor)`
unchanged, and `getData()` returns exactly the byte range `[0, cursor)` —
its length is the cursor position, never the allocated capacity.  The two
hypothesis is the `Writer` invariant that the cursor is inside the buffer
(the buffer starts at 1024 bytes and every write first accommodates, then
advances at most to the end). -/
theorem buffer_growth_preserves_written_bytes (w : Writer) (size : Nat)
    (h2 : w.offset ≤ w.data.length) :
    (w.accommodate size).data.take w.offset = w.data.take w.offset ∧
    w.getData = w.data.take w.offset ∧
    (w.getData).length = w.offset := by
  have hid : w.accommodate 0 = w := accommodate_id w 0 (by omega)
  have hget : w.getData = w.data.take w.offset := by
    unfold Writer.getData
    rw [hid]
  refine ⟨accommodate_take w size h2, hget, ?_⟩
  rw [hget, List.length_take]
  omega

/-- Witness for `buffer_growth_preserves_written_bytes`: a writer holding
one written byte, asked to accommodate 2000 further bytes (forcing a
doubling of the initial 1024-byte capacity). -/
theorem buffer_growth_preserves_written_bytes_witness :
    ((Writer.init.byte 5).accommodate 2000).data.take (Writer.init.byte 5).offset
      = (Writer.init.byte 5).data.take (Writer.init.byte 5).offset ∧
    (Writer.init.byte 5).getData = (Writer.init.byte 5).data.take (Writer.init.byte 5).offset ∧
    ((Writer.init.byte 5).getData).length = (Writer.init.byte 5).offset :=
  buffer_growth_preserves_written_bytes (Writer.init.byte 5) 2000 (by decide)

/-- Evaluating `jsSlice` on in-range non-negative indices gives plain drop/take. -/
theorem jsSlice_of_nonneg (d : List Nat) (a b : Int)
    (h0 : 0 ≤ a) (hab : a ≤ b) (hb : b ≤ d.length) :
    jsSlice d a b = (d.drop a.toNat).take (b - a).toNat := by
  have hna : ¬ (a < 0) := by omega
  have hnb : ¬ (b < 0) := by omega
  have hma : min a.toNat d.length = a.toNat := by omega
  have hmb : min b.toNat d.length = b.toNat := by omega
  have hsub : b.toNat - a.toNat = (b - a).toNat := by omega
  simp only [jsSlice, hna, hnb, if_false, hma, hmb, hsub]

/-- Evaluating `jsSlice` with a non-negative start and a negative end index: the end
resolves relative to the end of the buffer (ECMAScript relative
indexing). -/
theorem jsSlice_neg_end (d : List Nat) (a b : Int)
    (h0 : 0 ≤ a) (hbneg : b < 0) (hb : 0 ≤ (d.length : Int) + b) :
    jsSlice d a b =
      (d.drop (min a.toNat d.length)).take
        (((d.length : Int) + b).toNat - min a.toNat d.length) := by
  have hna : ¬ (a < 0) := by omega
  have hmax : max ((d.length : Int) + b) 0 = (d.length : Int) + b := max_eq_left hb
  simp only [jsSlice, hna, hbneg, if_false, if_true, hmax]

/-- The effect of `Reader#short` at a cursor with two bytes available. -/
theorem readShort_at (d : List Nat) (off : Nat) (h : off + 2 ≤ d.length) :
    readShort ⟨d, (off : Int)⟩ =
      some (jsInt16OfBytes (d.getD off 0) (d.getD (off + 1) 0), ⟨d, (off : Int) + 2⟩) := by
  have hcond : (RState.mk d (off : Int)).inBounds 2 := by
    constructor
    · show (0 : Int) ≤ (off : Int)
      omega
    · show (off : Int) + 2 ≤ (d.length : Int)
      omega
  simp [readShort, hcond, RState.byteAt]

/-- The effect of `Reader#string` unfolded one step on a successful length read. -/
theorem readString_step (s : RState) (len : Int) (s1 : RState)
    (h : readShort s = some (len, s1)) :
    readString s =
      some (decodeUTF8 (jsSlice s1.data s1.offset (s1.offset + len)),
        ⟨s1.data, s1.offset + len⟩) := by
  unfold readString
  rw [h]

/-- Claim C3 (amended): `Writer.string` writes the low 16 bits of the
UTF-8 byte count — equal to the count itself whenever it is at most
65535 — as two big-endian bytes at the cursor, followed by the encoded
bytes, advancing the cursor by 2 plus the byte count; `Reader.string`
reads a SIGNED 16-bit length (not the unsigned length the original claim
states), and whenever that signed length is non-negative and in bounds it
slices exactly that many bytes, decodes them, and advances the cursor by
2 plus that byte length. -/
theorem string_length_prefix_behavior :
    (∀ (w : Writer) (units : List Nat), 1 ≤ w.data.length → w.offset ≤ w.data.length →
      (w.string units).offset = w.offset + 2 + (encodeUTF8 units).length ∧
      ((w.string units).data.drop w.offset).take 2 =
        int16BytesBE ((encodeUTF8 units).length : Int) ∧
      ((w.string units).data.drop (w.offset + 2)).take (encodeUTF8 units).length =
        encodeUTF8 units) ∧
    (∀ (d : List Nat) (off : Nat) (len : Int),
      off + 2 ≤ d.length →
      jsInt16OfBytes (d.getD off 0) (d.getD (off + 1) 0) = len →
      0 ≤ len →
      (off : Int) + 2 + len ≤ d.length →
      readString ⟨d, (off : Int)⟩ =
        some (decodeUTF8 ((d.drop (off + 2)).take len.toNat),
          ⟨d, (off : Int) + 2 + len⟩)) := by
  constructor
  · intro w units h1 h2
    obtain ⟨o1, l1, le1, t1, s1⟩ :=
      writeBytesAt_spec w 2 (int16BytesBE ((encodeUTF8 units).length : Int)) rfl h1 h2
    obtain ⟨o2, l2, le2, t2, s2⟩ :=
      writeBytesAt_spec (w.writeBytesAt 2 (int16BytesBE ((encodeUTF8 units).length : Int)))
        (encodeUTF8 units).length (encodeUTF8 units) rfl l1 le1
    have hstring : w.string units =
        (w.writeBytesAt 2 (int16BytesBE ((encodeUTF8 units).length : Int))).writeBytesAt
          (encodeUTF8 units).length (encodeUTF8 units) := rfl
    rw [o1] at o2 t2 s2
    refine ⟨?_, ?_, ?_⟩
    · rw [hstring, o2]
    · rw [hstring]
      have := take_eq_of_take_eq w.offset 2 t2
      rw [this]
      exact s1
    · rw [hstring]
      exact s2
  · intro d off len hoff2 hval hpos hbound
    have hshort := readShort_at d off hoff2
    rw [hval] at hshort
    have hnat : ((off : Int) + 2).toNat = off + 2 := by omega
    have hdiff : ((off : Int) + 2 + len - ((off : Int) + 2)) = len := by omega
    have hslice : jsSlice d ((off : Int) + 2) ((off : Int) + 2 + len)
        = (d.drop (off + 2)).take len.toNat := by
      rw [jsSlice_of_nonneg d ((off : Int) + 2) ((off : Int) + 2 + len)
        (by omega) (by omega) (by omega), hnat, hdiff]
    simp only [readString, hshort, hslice]

/-- Witness for `string_length_prefix_behavior`: the writer side on a
fresh writer and the two-unit string "hi" (UTF-8 bytes 104 105), and the
reader side on the buffer 00 02 68 69 (length prefix 2, then "hi"). -/
theorem string_length_prefix_behavior_witness :
    ((Writer.init.string [104, 105]).offset
        = Writer.init.offset + 2 + (encodeUTF8 [104, 105]).length ∧
      ((Writer.init.string [104, 105]).data.drop Writer.init.offset).take 2 =
        int16BytesBE ((encodeUTF8 [104, 105]).length : Int) ∧
      ((Writer.init.string [104, 105]).data.drop (Writer.init.offset + 2)).take
          (encodeUTF8 [104, 105]).length = encodeUTF8 [104, 105]) ∧
    readString ⟨[0, 2, 104, 105], ((0 : Nat) : Int)⟩ =
      some (decodeUTF8 (([0, 2, 104, 105].drop (0 + 2)).take (2 : Int).toNat),
        ⟨[0, 2, 104, 105], ((0 : Nat) : Int) + 2 + 2⟩) :=
  ⟨string_length_prefix_behavior.1 Writer.init [104, 105] (by decide) (by decide),
   string_length_prefix_behavior.2 [0, 2, 104, 105] 0 2 (by decide) (by decide)
     (by decide) (by decide)⟩

/-- Claim C3 (counterexample): on a buffer whose length prefix has the
high bit set — first two bytes 80 00, followed by 32768 zero bytes —
the claim's unsigned reading would slice 32768 bytes and advance the
cursor to 2 + 32768 = 32770.  The code reads the SIGNED 16-bit value
-32768: the ECMAScript slice of `[2, -32766)` resolves its negative end
relative to the buffer end (to index 4), yielding the two bytes 00 00,
and the cursor lands at 2 + (-32768) = -32766, not at 32770. -/
theorem readString_signed_length_counterexample :
    readString ⟨[0x80, 0x00] ++ List.replicate 32768 0, 0⟩ =
      some ([0, 0], ⟨[0x80, 0x00] ++ List.replicate 32768 0, -32766⟩) ∧
    (-32766 : Int) ≠ (2 : Int) + 32768 := by
  refine ⟨?_, by decide⟩
  have hlen : ([0x80, 0x00] ++ List.replicate 32768 0 : List Nat).length = 32770 := by
    rw [List.length_append, List.length_replicate]
    rfl
  have g0 : ([0x80, 0x00] ++ List.replicate 32768 0 : List Nat).getD 0 0 = 0x80 := rfl
  have g1 : ([0x80, 0x00] ++ List.replicate 32768 0 : List Nat).getD 1 0 = 0x00 := rfl
  have hshort : readShort ⟨[0x80, 0x00] ++ List.replicate 32768 0, 0⟩ =
      some (-32768, ⟨[0x80, 0x00] ++ List.replicate 32768 0, 2⟩) := by
    have h2 : (0 : Nat) + 2 ≤ ([0x80, 0x00] ++ List.replicate 32768 0 : List Nat).length := by
      omega
    have h := readShort_at ([0x80, 0x00] ++ List.replicate 32768 0) 0 h2
    rw [g0, g1] at h
    have hv : jsInt16OfBytes 0x80 0x00 = -32768 := by decide
    rw [hv] at h
    simp only [Nat.cast_zero, zero_add] at h
    exact h
  have hdrop : ([0x80, 0x00] ++ List.replicate 32768 0 : List Nat).drop 2
      = List.replicate 32768 0 := rfl
  have hslice : jsSlice ([0x80, 0x00] ++ List.replicate 32768 0) 2 (2 + (-32768)) = [0, 0] := by
    have hgen := jsSlice_neg_end ([0x80, 0x00] ++ List.replicate 32768 0) 2 (2 + (-32768))
      (by decide) (by decide) (by rw [hlen]; decide)
    rw [hlen] at hgen
    have m1 : min ((2 : Int)).toNat 32770 = 2 := by decide
    have m2 : (((32770 : Nat) : Int) + (2 + (-32768))).toNat = 4 := by decide
    rw [m1, m2] at hgen
    rw [hdrop, List.take_replicate] at hgen
    have m3 : List.replicate (min (4 - 2) 32768) (0 : Nat) = [0, 0] := rfl
    rw [m3] at hgen
    exact hgen
  have h1 := readString_step _ _ _ hshort
  have hp1 : (RState.mk ([0x80, 0x00] ++ List.replicate 32768 0) 2).data
      = [0x80, 0x00] ++ List.replicate 32768 0 := rfl
  have hp2 : (RState.mk ([0x80, 0x00] ++ List.replicate 32768 0) 2).offset = 2 := rfl
  rw [hp1, hp2] at h1
  rw [hslice] at h1
  have hdec : decodeUTF8 [0, 0] = [0, 0] := rfl
  have hoffeq : (2 : Int) + (-32768) = -32766 := by decide
  rw [hdec, hoffeq] at h1
  exact h1
end NbtJs
